import Mathlib

/-!
Shallow embedding of the tenora-cfar-widget simulation engine
(src/sim/monteCarlo.ts, rolling hedge-book revision) and of the request
validation in the HTTP handler (src/index.ts, POST /api/cfar/run).

JavaScript numbers are modelled as exact rationals (ℚ); the request layer,
where finiteness of values matters, additionally models non-finite numbers
with an explicit JSNum sum type.  JavaScript array reads `a[i]` are modelled
with `List.getD i 0` (the claims below only exercise in-bounds reads).
The engine's only source of randomness, `Math.random()` inside
`randomIndex`, is modelled by an explicit draw function
`draws : ℕ → ℕ → ℕ` giving the drawn index for (trial, step).
-/

namespace Tenora

/-- `mean(arr)`: arithmetic average (sum divided by length). -/
def mean (arr : List ℚ) : ℚ := arr.sum / (arr.length : ℚ)

/-- JavaScript `[...outcomes].sort((a, b) => a - b)`: ascending sort. -/
def sortAsc (l : List ℚ) : List ℚ := l.insertionSort (· ≤ ·)

/-- `percentile(sortedAsc, p)`: `sortedAsc[Math.floor(p * (n - 1))]`. -/
def percentile (sortedAsc : List ℚ) (p : ℚ) : ℚ :=
  sortedAsc.getD (Int.floor (p * ((sortedAsc.length : ℚ) - 1))).toNat 0

/-- `closesToReturns(closes)`: pushes `closes[i] / closes[i-1] - 1`
for `i = 1 .. closes.length - 1`. -/
def closesToReturns : List ℚ → List ℚ
  | a :: b :: rest => (b / a - 1) :: closesToReturns (b :: rest)
  | _ => []

/-- The `hist` record returned by `buildHist`. -/
structure Hist where
  bins : ℕ
  min : ℚ
  max : ℚ
  counts : List ℕ
deriving DecidableEq

/-- The clamped bin index of one sample in `buildHist`:
`Math.floor((x - min) / width)`, forced into `[0, bins - 1]`. -/
def binIndex (lo width : ℚ) (x : ℚ) : ℕ :=
  let idx : ℤ := Int.floor ((x - lo) / width)
  let idx1 : ℤ := if idx < 0 then 0 else idx
  let idx2 : ℤ := if 30 ≤ idx1 then 29 else idx1
  idx2.toNat

/-- `buildHist(outcomes)`: 30 fixed bins from min to max of the samples,
widening `max` by `1e-9` when all samples coincide. -/
def buildHist (outcomes : List ℚ) : Hist :=
  let sorted := sortAsc outcomes
  let lo := sorted.getD 0 0
  let max0 := sorted.getD (sorted.length - 1) 0
  let hi := if max0 = lo then lo + 1 / 1000000000 else max0
  let width := (hi - lo) / 30
  let counts := outcomes.foldl
    (fun cnts x => cnts.set (binIndex lo width x) (cnts.getD (binIndex lo width x) 0 + 1))
    (List.replicate 30 0)
  { bins := 30, min := lo, max := hi, counts := counts }

/-- `SimulationResult` as returned by `summarize` / `simulateCFaR`. -/
structure SimulationResult where
  mean : ℚ
  p5 : ℚ
  cfar : ℚ
  sims : ℕ
  months : ℕ
  hist : Hist
deriving DecidableEq

/-- The `summarize` closure of `applyHedgingToPaths`: mean, nearest-rank
5th percentile of the ascending sort, `cfar = mean - p5`, histogram. -/
def summarize (sims months : ℕ) (outcomes : List ℚ) : SimulationResult :=
  let sorted := sortAsc outcomes
  let m := mean outcomes
  let p5 := percentile sorted (1 / 20)
  { mean := m, p5 := p5, cfar := m - p5, sims := sims, months := months,
    hist := buildHist outcomes }

/-- `HedgedSimulationResult`. -/
structure HedgedSimulationResult where
  unhedged : SimulationResult
  hedged : SimulationResult
  hedgeRatio : ℚ
  forwardRate : ℚ
  riskReductionPct : ℚ
deriving DecidableEq

/-- One step of the simulated rate: multiply by `(1 + r)` then apply the two
optional clamps, first the lower one, then the upper one. -/
def clampRate (clampLower clampUpper : Option ℚ) (x : ℚ) : ℚ :=
  let a := match clampLower with
    | some l => if x < l then l else x
    | none => x
  match clampUpper with
    | some u => if u < a then u else a
    | none => a

/-- The running rate of one trial of `simulateFXPaths` after `t` steps:
`rateAt 0 = spot`, and each later value multiplies the previous one by
`1 + monthlyReturns[draw t]` and clamps.  `draw` models the
`randomIndex(monthlyReturns.length)` calls of one trial. -/
def rateAt (draw : ℕ → ℕ) (spot : ℚ) (monthlyReturns : List ℚ)
    (clampLower clampUpper : Option ℚ) : ℕ → ℚ
  | 0 => spot
  | t + 1 =>
    clampRate clampLower clampUpper
      (rateAt draw spot monthlyReturns clampLower clampUpper t *
        (1 + monthlyReturns.getD (draw (t + 1)) 0))

/-- `simulateFXPaths`: `sims` independent paths, each of length
`months + 1`, with `path[0] = spot`. -/
def simulateFXPaths (draws : ℕ → ℕ → ℕ) (spot : ℚ) (monthlyReturns : List ℚ)
    (sims months : ℕ) (clampLower clampUpper : Option ℚ) : List (List ℚ) :=
  (List.range sims).map
    (fun k => (List.range (months + 1)).map
      (rateAt (draws k) spot monthlyReturns clampLower clampUpper))

/-- A `Hedge` entry of the per-path hedge book. -/
structure Hedge where
  settleMonth : ℕ
  forwardRate : ℚ
  notional : ℚ
deriving DecidableEq

/-- The mutable state of the month loop of `applyHedgingToPaths`:
the open hedge book and the two running totals. -/
structure HedgeState where
  book : List Hedge
  totalUnhedged : ℚ
  totalHedged : ℚ
deriving DecidableEq

/-- The body of `for (let t = 0; t < months; t++)` in `applyHedgingToPaths`:
open a contract when `t + hedgeTenorMonths` is inside the horizon, settle
contracts due at `t`, accrue the hedged and unhedged totals. -/
def hedgeStep (exposures : List ℚ) (hedgeRatio forwardFactor : ℚ) (tenor : ℕ)
    (path : List ℚ) (st : HedgeState) (t : ℕ) : HedgeState :=
  let e := exposures.getD t 0
  let entrySpot := path.getD t 0
  let settleSpot := path.getD (t + 1) 0
  let hedgeTargetMonth := t + tenor
  let book1 := if hedgeTargetMonth < exposures.length then
      st.book ++ [{ settleMonth := hedgeTargetMonth,
                    forwardRate := entrySpot * forwardFactor,
                    notional := exposures.getD hedgeTargetMonth 0 * hedgeRatio }]
    else st.book
  let settled := book1.filter (fun h => h.settleMonth == t)
  let hedgedCashflow := (settled.map (fun h => h.notional * h.forwardRate)).sum
  let book2 := book1.filter (fun h => ! (h.settleMonth == t))
  { book := book2
    totalUnhedged := st.totalUnhedged + e * settleSpot
    totalHedged := st.totalHedged + (hedgedCashflow + e * (1 - hedgeRatio) * settleSpot) }

/-- The `(totalUnhedged, totalHedged)` pair one path contributes in
`applyHedgingToPaths`. -/
def hedgePathOutcome (exposures : List ℚ) (hedgeRatio forwardFactor : ℚ)
    (tenor : ℕ) (path : List ℚ) : ℚ × ℚ :=
  let final := (List.range exposures.length).foldl
    (hedgeStep exposures hedgeRatio forwardFactor tenor path)
    { book := [], totalUnhedged := 0, totalHedged := 0 }
  (final.totalUnhedged, final.totalHedged)

/-- The `(unhedgedOutcomes[k], hedgedOutcomes[k])` sequence of
`applyHedgingToPaths`, with `hedgeTenorMonths` defaulting to
`exposures.length` and `forwardFactor = forwardRate / fxPaths.spots[0][0]`. -/
def pathOutcomes (fxPaths : List (List ℚ)) (exposures : List ℚ)
    (hedgeRatio forwardRate : ℚ) (hedgeTenorMonths : Option ℕ) : List (ℚ × ℚ) :=
  let tenor := hedgeTenorMonths.getD exposures.length
  let forwardFactor := forwardRate / ((fxPaths.getD 0 []).getD 0 0)
  fxPaths.map (hedgePathOutcome exposures hedgeRatio forwardFactor tenor)

/-- `applyHedgingToPaths`: per-path rolling hedge bookkeeping, then
`summarize` on both outcome sets, with `sims = fxPaths.spots.length` and
`months = exposures.length`. -/
def applyHedgingToPaths (fxPaths : List (List ℚ)) (exposures : List ℚ)
    (hedgeRatio forwardRate : ℚ) (hedgeTenorMonths : Option ℕ) :
    HedgedSimulationResult :=
  let sims := fxPaths.length
  let months := exposures.length
  let outs := pathOutcomes fxPaths exposures hedgeRatio forwardRate hedgeTenorMonths
  let unhedged := summarize sims months (outs.map Prod.fst)
  let hedged := summarize sims months (outs.map Prod.snd)
  { unhedged := unhedged, hedged := hedged,
    hedgeRatio := hedgeRatio, forwardRate := forwardRate,
    riskReductionPct :=
      if 0 < unhedged.cfar then (1 - hedged.cfar / unhedged.cfar) * 100 else 0 }

/-- `simulateHedgedCFaR`: generate the path set, then apply the hedge. -/
def simulateHedgedCFaR (draws : ℕ → ℕ → ℕ) (spot : ℚ) (monthlyReturns : List ℚ)
    (exposures : List ℚ) (sims months : ℕ) (clampLower clampUpper : Option ℚ)
    (hedgeRatio forwardRate : ℚ) (hedgeTenorMonths : Option ℕ) :
    HedgedSimulationResult :=
  applyHedgingToPaths
    (simulateFXPaths draws spot monthlyReturns sims months clampLower clampUpper)
    exposures hedgeRatio forwardRate hedgeTenorMonths

/-- A JavaScript number as seen by the request layer: a finite rational
or one of the non-finite values. -/
inductive JSNum where
  | num (q : ℚ)
  | nan
  | inf
  | neginf
deriving DecidableEq

/-- `Number.isFinite`. -/
def JSNum.isFinite : JSNum → Bool
  | num _ => true
  | _ => false

/-- `Number.isFinite(months) ? Number(months) : 12` (absent values model
`undefined`, for which `Number.isFinite` is false). -/
def horizonOf (months : Option JSNum) : ℚ :=
  match months with
  | some (JSNum.num q) => q
  | _ => 12

/-- `Number.isFinite(sims) ? Number(sims) : 5000`. -/
def simsOf (sims : Option JSNum) : ℚ :=
  match sims with
  | some (JSNum.num q) => q
  | _ => 5000

/-- The guard sequence of `app.post("/api/cfar/run", ...)` up to the first
`simulate*` call, in source order: currency presence, months range, sims
range, exposures array length, optional forwardRate, optional hedgeRatio,
FX pair lookup.  Returns `some errorMessage` when the request is rejected
with HTTP 400 before any simulation, `none` when the handler goes on to
simulate.  `pairFound` models the `FX_DATA[pairKey]` lookup (the static
dataset module is not part of the engine source); `none` for an optional
field models `undefined`/`null`/the empty string, which the handler skips. -/
def runValidation (homeCcy exposureCcy : String) (exposures : List JSNum)
    (months sims forwardRate hedgeRatio : Option JSNum) (pairFound : Bool) :
    Option String :=
  if homeCcy = "" ∨ exposureCcy = "" then
    some "homeCcy and exposureCcy required"
  else
    let horizon := horizonOf months
    if ¬ (horizon.den = 1 ∧ 1 ≤ horizon ∧ horizon ≤ 60) then
      some "months must be 1-60"
    else
      let simsNum := simsOf sims
      if ¬ (simsNum.den = 1 ∧ 100 ≤ simsNum ∧ simsNum ≤ 200000) then
        some "sims must be 100-200000"
      else if ¬ ((exposures.length : ℚ) = horizon) then
        some "exposures must be length horizon"
      else
        let fwdOk := match forwardRate with
          | none => true
          | some (JSNum.num q) => decide (0 < q)
          | some _ => false
        if fwdOk = false then some "forwardRate must be a positive number"
        else
          let hrOk := match hedgeRatio with
            | none => true
            | some (JSNum.num q) => decide (0 ≤ q ∧ q ≤ 1)
            | some _ => false
          if hrOk = false then some "hedgeRatio must be between 0 and 1"
          else if ¬ pairFound then some "No FX data for pair"
          else none

/-- Modelled from the spec: the Return Extractor as section 4.1 describes
it, failing (`none`) on fewer than 2 closes instead of returning a series.
Used only to compare the specified failure behaviour with the actual
`closesToReturns`. -/
def closesToReturnsSpec (closes : List ℚ) : Option (List ℚ) :=
  if closes.length < 2 then none else some (closesToReturns closes)

lemma hedgeStep_ratio_zero (exposures path : List ℚ) (fF : ℚ) (tenor t : ℕ)
    (st : HedgeState) (hbook : ∀ h ∈ st.book, h.notional = 0)
    (heq : st.totalHedged = st.totalUnhedged) :
    (∀ h ∈ (hedgeStep exposures 0 fF tenor path st t).book, h.notional = 0) ∧
    (hedgeStep exposures 0 fF tenor path st t).totalHedged
      = (hedgeStep exposures 0 fF tenor path st t).totalUnhedged := by
  unfold hedgeStep
  simp only [mul_zero]
  set book1 := (if t + tenor < exposures.length then
      st.book ++ [{ settleMonth := t + tenor,
                    forwardRate := path.getD t 0 * fF,
                    notional := (0 : ℚ) }]
    else st.book) with hbook1
  have hb1 : ∀ h ∈ book1, h.notional = 0 := by
    intro h hm
    rw [hbook1] at hm
    by_cases hc : t + tenor < exposures.length
    · simp only [if_pos hc, List.mem_append, List.mem_singleton] at hm
      rcases hm with hm | hm
      · exact hbook h hm
      · rw [hm]
    · simp only [if_neg hc] at hm
      exact hbook h hm
  have hcash :
      (((book1.filter (fun h => h.settleMonth == t)).map
        (fun h => h.notional * h.forwardRate)).sum : ℚ) = 0 := by
    apply List.sum_eq_zero
    intro y hy
    rcases List.mem_map.mp hy with ⟨h, hh, rfl⟩
    rw [hb1 h (List.mem_of_mem_filter hh), zero_mul]
  refine ⟨?_, ?_⟩
  · intro h hm
    exact hb1 h (List.mem_of_mem_filter hm)
  · rw [hcash, heq]; ring

lemma foldl_hedge_ratio_zero (exposures path : List ℚ) (fF : ℚ) (tenor : ℕ)
    (l : List ℕ) :
    ∀ st : HedgeState, (∀ h ∈ st.book, h.notional = 0) →
      st.totalHedged = st.totalUnhedged →
      (l.foldl (hedgeStep exposures 0 fF tenor path) st).totalHedged
        = (l.foldl (hedgeStep exposures 0 fF tenor path) st).totalUnhedged := by
  induction l with
  | nil => intro st _ heq; simpa using heq
  | cons a l ih =>
    intro st hbook heq
    have h := hedgeStep_ratio_zero exposures path fF tenor a st hbook heq
    exact ih _ h.1 h.2

lemma hedgePathOutcome_ratio_zero (exposures path : List ℚ) (fF : ℚ) (tenor : ℕ) :
    (hedgePathOutcome exposures 0 fF tenor path).2
      = (hedgePathOutcome exposures 0 fF tenor path).1 := by
  unfold hedgePathOutcome
  exact foldl_hedge_ratio_zero exposures path fF tenor _ _ (by simp) rfl

/-- C3: with `hedgeRatio = 0` the hedged outcome sequence produced by
`applyHedgingToPaths` equals the unhedged outcome sequence element for
element over the same path set, and the hedged summary equals the
unhedged summary. -/
theorem hedge_ratio_zero_is_noop (fxPaths : List (List ℚ)) (exposures : List ℚ)
    (forwardRate : ℚ) (tenorOpt : Option ℕ) :
    (pathOutcomes fxPaths exposures 0 forwardRate tenorOpt).map Prod.snd
      = (pathOutcomes fxPaths exposures 0 forwardRate tenorOpt).map Prod.fst ∧
    (applyHedgingToPaths fxPaths exposures 0 forwardRate tenorOpt).hedged
      = (applyHedgingToPaths fxPaths exposures 0 forwardRate tenorOpt).unhedged := by
  have hlist : (pathOutcomes fxPaths exposures 0 forwardRate tenorOpt).map Prod.snd
      = (pathOutcomes fxPaths exposures 0 forwardRate tenorOpt).map Prod.fst := by
    unfold pathOutcomes
    rw [List.map_map, List.map_map]
    apply List.map_congr_left
    intro p _
    exact hedgePathOutcome_ratio_zero exposures p _ _
  refine ⟨hlist, ?_⟩
  unfold applyHedgingToPaths
  simp only []
  rw [hlist]

/-- C7: `riskReductionPct` equals
`(1 - hedged.cfar / unhedged.cfar) * 100` when `unhedged.cfar > 0` and `0`
otherwise, both for `applyHedgingToPaths` and for `simulateHedgedCFaR`. -/
theorem riskReductionPct_formula (fxPaths : List (List ℚ)) (exposures : List ℚ)
    (hedgeRatio forwardRate : ℚ) (tenorOpt : Option ℕ) (draws : ℕ → ℕ → ℕ)
    (spot : ℚ) (monthlyReturns : List ℚ) (sims months : ℕ)
    (clampLower clampUpper : Option ℚ) :
    ((applyHedgingToPaths fxPaths exposures hedgeRatio forwardRate tenorOpt).riskReductionPct
      = if 0 < (applyHedgingToPaths fxPaths exposures hedgeRatio forwardRate tenorOpt).unhedged.cfar
        then (1 - (applyHedgingToPaths fxPaths exposures hedgeRatio forwardRate tenorOpt).hedged.cfar
                / (applyHedgingToPaths fxPaths exposures hedgeRatio forwardRate tenorOpt).unhedged.cfar) * 100
        else 0) ∧
    ((simulateHedgedCFaR draws spot monthlyReturns exposures sims months clampLower clampUpper hedgeRatio forwardRate tenorOpt).riskReductionPct
      = if 0 < (simulateHedgedCFaR draws spot monthlyReturns exposures sims months clampLower clampUpper hedgeRatio forwardRate tenorOpt).unhedged.cfar
        then (1 - (simulateHedgedCFaR draws spot monthlyReturns exposures sims months clampLower clampUpper hedgeRatio forwardRate tenorOpt).hedged.cfar
                / (simulateHedgedCFaR draws spot monthlyReturns exposures sims months clampLower clampUpper hedgeRatio forwardRate tenorOpt).unhedged.cfar) * 100
        else 0) :=
  ⟨rfl, rfl⟩

/-- C1 counterexample: in the spec's concrete scenario (returns taken from
`closes = [1, 1.10, 0.99, 1.05]`, `spot = 1.05`, `months = 3`, exposures
`[100, 100, 100]`, every draw selecting return index 0, `hedgeRatio = 1`,
`forwardRate = 1.05`, `hedgeTenorMonths = 1`) the code produces the claimed
path and the claimed unhedged outcome `382.305`, but the hedged outcome is
`220.5`, not `315` as the claim states. -/
theorem scenario_hedged_outcome_counterexample :
    simulateFXPaths (fun _ _ => 0) (21/20)
        (closesToReturns [1, 11/10, 99/100, 21/20]) 1 3 none none
      = [[21/20, 231/200, 2541/2000, 27951/20000]] ∧
    pathOutcomes [[21/20, 231/200, 2541/2000, 27951/20000]] [100, 100, 100]
        1 (21/20) (some 1)
      = [(76461/200, 441/2)] ∧
    (76461/200 : ℚ) = 382305/1000 ∧
    ¬ ((441/2 : ℚ) = 315) := by
  refine ⟨?_, ?_, by norm_num, by norm_num⟩
  · simp [simulateFXPaths, List.range_succ, rateAt, clampRate, closesToReturns]
    norm_num
  · simp [pathOutcomes, hedgePathOutcome, hedgeStep, List.range_succ]
    norm_num

/-- C1 amended: in the concrete scenario the extracted returns are
`[0.10, -0.10, 2/33]`, the generated path is
`[1.05, 1.155, 1.2705, 1.39755]`, the unhedged outcome is `382.305`, and
with `hedgeRatio = 1`, `forwardRate = 1.05`, `hedgeTenorMonths = 1` the
hedged outcome is `100 * 1.05 + 100 * 1.155 = 220.5`: only the contracts
opened at months 0 and 1 settle (at months 1 and 2, locked at
`path[0]` and `path[1]`), the month-0 exposure is never hedged, and with
ratio 1 it contributes nothing floating either. -/
theorem scenario_hedged_outcome_amended :
    closesToReturns [1, 11/10, 99/100, 21/20] = [1/10, -1/10, 2/33] ∧
    simulateFXPaths (fun _ _ => 0) (21/20) [1/10, -1/10, 2/33] 1 3 none none
      = [[21/20, 231/200, 2541/2000, 27951/20000]] ∧
    pathOutcomes [[21/20, 231/200, 2541/2000, 27951/20000]] [100, 100, 100]
        1 (21/20) (some 1)
      = [(382305/1000, 2205/10)] := by
  refine ⟨?_, ?_, ?_⟩
  · simp [closesToReturns]; norm_num
  · simp [simulateFXPaths, List.range_succ, rateAt, clampRate]
    norm_num
  · simp [pathOutcomes, hedgePathOutcome, hedgeStep, List.range_succ]
    norm_num

lemma clampRate_bounds (L U x : ℚ) (hLU : L ≤ U) :
    L ≤ clampRate (some L) (some U) x ∧ clampRate (some L) (some U) x ≤ U := by
  simp only [clampRate]
  split_ifs <;> constructor <;> linarith

lemma rateAt_bounds (draw : ℕ → ℕ) (spot : ℚ) (rets : List ℚ) (L U : ℚ)
    (hL : L ≤ spot) (hU : spot ≤ U) :
    ∀ t, L ≤ rateAt draw spot rets (some L) (some U) t ∧
         rateAt draw spot rets (some L) (some U) t ≤ U := by
  intro t
  induction t with
  | zero => exact ⟨hL, hU⟩
  | succ t _ =>
    simp only [rateAt]
    exact clampRate_bounds L U _ (hL.trans hU)

/-- C2 counterexample: the claim includes `t = 0`, but `path[0] = spot` is
written before any clamping, so a spot outside the supplied bounds violates
it: with `spot = 2`, bounds `[0, 1]`, one month and return `0`, the path is
`[2, 1]` and `path[0] = 2 > clampUpper = 1`. -/
theorem clamp_invariant_counterexample :
    simulateFXPaths (fun _ _ => 0) 2 [0] 1 1 (some 0) (some 1) = [[2, 1]] ∧
    ¬ ((2 : ℚ) ≤ 1) := by
  constructor
  · simp [simulateFXPaths, List.range_succ, rateAt, clampRate]
    norm_num
  · norm_num

/-- C2 amended: when both clamp bounds are supplied and
`clampLower ≤ spot ≤ clampUpper`, every value of every generated path,
`path[0] = spot` included, lies in `[clampLower, clampUpper]`. -/
theorem clamp_invariant (draws : ℕ → ℕ → ℕ) (spot : ℚ) (rets : List ℚ)
    (sims months : ℕ) (L U : ℚ) (hL : L ≤ spot) (hU : spot ≤ U) :
    ∀ p ∈ simulateFXPaths draws spot rets sims months (some L) (some U),
      ∀ x ∈ p, L ≤ x ∧ x ≤ U := by
  intro p hp x hx
  unfold simulateFXPaths at hp
  rcases List.mem_map.mp hp with ⟨k, _, rfl⟩
  rcases List.mem_map.mp hx with ⟨t, _, rfl⟩
  exact rateAt_bounds (draws k) spot rets L U hL hU t

/-- Witness for C2 amended at `spot = 1`, bounds `[0, 1]`, return `1`. -/
theorem clamp_invariant_witness :
    (0 : ℚ) ≤ 1 ∧ (1 : ℚ) ≤ 1 ∧
    ∀ p ∈ simulateFXPaths (fun _ _ => 0) 1 [1] 1 1 (some 0) (some 1),
      ∀ x ∈ p, (0 : ℚ) ≤ x ∧ x ≤ 1 :=
  ⟨by norm_num, le_refl 1,
    clamp_invariant (fun _ _ => 0) 1 [1] 1 1 0 1 (by norm_num) (le_refl 1)⟩

lemma hedgeStep_tenor_ge (exposures path : List ℚ) (ratio fF : ℚ) (tenor t : ℕ)
    (h : exposures.length ≤ tenor) (st : HedgeState)
    (hb : st.book = []) (hh : st.totalHedged = (1 - ratio) * st.totalUnhedged) :
    (hedgeStep exposures ratio fF tenor path st t).book = [] ∧
    (hedgeStep exposures ratio fF tenor path st t).totalHedged
      = (1 - ratio) * (hedgeStep exposures ratio fF tenor path st t).totalUnhedged := by
  have hcond : ¬ (t + tenor < exposures.length) := by omega
  simp only [hedgeStep, if_neg hcond, hb, List.filter_nil, List.map_nil,
    List.sum_nil]
  refine ⟨trivial, ?_⟩
  rw [hh]; ring

lemma foldl_hedge_tenor_ge (exposures path : List ℚ) (ratio fF : ℚ) (tenor : ℕ)
    (h : exposures.length ≤ tenor) (t : ℕ) :
    ((List.range t).foldl (hedgeStep exposures ratio fF tenor path)
      { book := [], totalUnhedged := 0, totalHedged := 0 }).book = [] ∧
    ((List.range t).foldl (hedgeStep exposures ratio fF tenor path)
      { book := [], totalUnhedged := 0, totalHedged := 0 }).totalHedged
      = (1 - ratio) *
        ((List.range t).foldl (hedgeStep exposures ratio fF tenor path)
          { book := [], totalUnhedged := 0, totalHedged := 0 }).totalUnhedged := by
  induction t with
  | zero => exact ⟨rfl, by simp⟩
  | succ t ih =>
    rw [List.range_succ, List.foldl_append, List.foldl_cons, List.foldl_nil]
    exact hedgeStep_tenor_ge exposures path ratio fF tenor t h _ ih.1 ih.2

/-- C6: when `hedgeTenorMonths` is at least the horizon
(`exposures.length`, the `months` of the hedge ledger), the hedge book is
empty after every month of the run, and the hedged total is exactly
`(1 - hedgeRatio)` times the unhedged total of the same path. -/
theorem tenor_ge_months_no_hedge (exposures path : List ℚ) (ratio fF : ℚ)
    (tenor : ℕ) (h : exposures.length ≤ tenor) :
    (∀ t : ℕ, ((List.range t).foldl (hedgeStep exposures ratio fF tenor path)
      { book := [], totalUnhedged := 0, totalHedged := 0 }).book = []) ∧
    (hedgePathOutcome exposures ratio fF tenor path).2
      = (1 - ratio) * (hedgePathOutcome exposures ratio fF tenor path).1 := by
  constructor
  · intro t
    exact (foldl_hedge_tenor_ge exposures path ratio fF tenor h t).1
  · unfold hedgePathOutcome
    exact (foldl_hedge_tenor_ge exposures path ratio fF tenor h exposures.length).2

/-- Witness for C6 at one exposure, tenor 1, ratio 1/2. -/
theorem tenor_ge_months_no_hedge_witness :
    [(1 : ℚ)].length ≤ 1 ∧
    ((∀ t : ℕ, ((List.range t).foldl (hedgeStep [(1 : ℚ)] (1/2) 1 1 [(2 : ℚ), 3])
      { book := [], totalUnhedged := 0, totalHedged := 0 }).book = []) ∧
    (hedgePathOutcome [(1 : ℚ)] (1/2) 1 1 [(2 : ℚ), 3]).2
      = (1 - 1/2) * (hedgePathOutcome [(1 : ℚ)] (1/2) 1 1 [(2 : ℚ), 3]).1) :=
  ⟨by simp, tenor_ge_months_no_hedge [(1 : ℚ)] [(2 : ℚ), 3] (1/2) 1 1 (by simp)⟩

lemma floor_p5_index (n : ℕ) (h : 0 < n) :
    (Int.floor ((1/20 : ℚ) * ((n : ℚ) - 1))).toNat = (n - 1) / 20 := by
  have h' : 1 ≤ n := h
  have h1 : ((n : ℚ) - 1) = ((n - 1 : ℕ) : ℚ) := by
    have hc : ((n - 1 : ℕ) : ℚ) = (n : ℚ) - ((1 : ℕ) : ℚ) := Nat.cast_sub h'
    rw [hc, Nat.cast_one]
  have h2 : (1/20 : ℚ) * ((n - 1 : ℕ) : ℚ) = ((n - 1 : ℕ) : ℚ) / ((20 : ℕ) : ℚ) := by
    push_cast
    ring
  rw [h1, h2, Rat.floor_natCast_div_natCast, ← Int.natCast_div, Int.toNat_natCast]

/-- C4: the `p5` reported by `summarize` on a sample set of length `sims`
is the element at index `⌊0.05 * (sims - 1)⌋` of the ascending sort of the
samples (nearest rank, no interpolation), `cfar` is `mean - p5`, and
`sortAsc` really is an ascending (sorted, permuted) rearrangement. -/
theorem p5_nearest_rank (outcomes : List ℚ) (sims months : ℕ)
    (hlen : sims = outcomes.length) (h0 : 0 < sims) :
    (summarize sims months outcomes).p5
      = (sortAsc outcomes).getD ((sims - 1) / 20) 0 ∧
    (summarize sims months outcomes).cfar
      = (summarize sims months outcomes).mean - (summarize sims months outcomes).p5 ∧
    List.Sorted (· ≤ ·) (sortAsc outcomes) ∧
    (sortAsc outcomes).Perm outcomes := by
  refine ⟨?_, rfl, List.sorted_insertionSort _ _, List.perm_insertionSort _ _⟩
  show percentile (sortAsc outcomes) (1/20) = _
  unfold percentile
  have hlen2 : (sortAsc outcomes).length = sims := by
    rw [hlen]
    exact List.length_insertionSort _ _
  rw [hlen2, floor_p5_index sims h0]

/-- Witness for C4 on the three-sample set `[3, 1, 2]`. -/
theorem p5_nearest_rank_witness :
    (3 : ℕ) = [(3 : ℚ), 1, 2].length ∧ (0 < 3) ∧
    ((summarize 3 7 [(3 : ℚ), 1, 2]).p5
        = (sortAsc [(3 : ℚ), 1, 2]).getD ((3 - 1) / 20) 0 ∧
      (summarize 3 7 [(3 : ℚ), 1, 2]).cfar
        = (summarize 3 7 [(3 : ℚ), 1, 2]).mean - (summarize 3 7 [(3 : ℚ), 1, 2]).p5 ∧
      List.Sorted (· ≤ ·) (sortAsc [(3 : ℚ), 1, 2]) ∧
      (sortAsc [(3 : ℚ), 1, 2]).Perm [(3 : ℚ), 1, 2]) ∧
    (sortAsc [(3 : ℚ), 1, 2]).getD ((3 - 1) / 20) 0 = 1 :=
  ⟨by simp, by norm_num,
    p5_nearest_rank [(3 : ℚ), 1, 2] 3 7 (by simp) (by norm_num),
    by simp [sortAsc, List.insertionSort, List.orderedInsert]⟩

lemma binIndex_lt (lo w x : ℚ) : binIndex lo w x < 30 := by
  unfold binIndex
  dsimp only
  split_ifs <;> omega

lemma sum_set_inc (l : List ℕ) (i : ℕ) (h : i < l.length) :
    (l.set i (l.getD i 0 + 1)).sum = l.sum + 1 := by
  induction l generalizing i with
  | nil => simp at h
  | cons a l ih =>
    cases i with
    | zero =>
      simp only [List.set_cons_zero, List.getD_cons_zero, List.sum_cons]
      omega
    | succ i =>
      simp only [List.length_cons] at h
      simp only [List.set_cons_succ, List.getD_cons_succ, List.sum_cons]
      rw [ih i (by omega)]
      omega

lemma histFold_length_sum (lo w : ℚ) (xs : List ℚ) :
    ∀ cnts : List ℕ, cnts.length = 30 →
      ((xs.foldl (fun cnts x =>
          cnts.set (binIndex lo w x) (cnts.getD (binIndex lo w x) 0 + 1)) cnts).length = 30 ∧
       (xs.foldl (fun cnts x =>
          cnts.set (binIndex lo w x) (cnts.getD (binIndex lo w x) 0 + 1)) cnts).sum
         = cnts.sum + xs.length) := by
  induction xs with
  | nil =>
    intro cnts h
    exact ⟨h, by simp⟩
  | cons x xs ih =>
    intro cnts h
    rw [List.foldl_cons]
    have hlt : binIndex lo w x < cnts.length := by
      rw [h]; exact binIndex_lt lo w x
    have h1 : (cnts.set (binIndex lo w x) (cnts.getD (binIndex lo w x) 0 + 1)).length = 30 := by
      rw [List.length_set]; exact h
    obtain ⟨hl, hs⟩ := ih _ h1
    refine ⟨hl, ?_⟩
    rw [hs, sum_set_inc cnts _ hlt, List.length_cons]
    omega

lemma sortAsc_replicate (n : ℕ) (v : ℚ) :
    sortAsc (List.replicate n v) = List.replicate n v := by
  induction n with
  | zero => rfl
  | succ n ih =>
    rw [List.replicate_succ]
    unfold sortAsc at ih ⊢
    rw [List.insertionSort, ih]
    cases n with
    | zero => rfl
    | succ n =>
      rw [List.replicate_succ, List.orderedInsert, if_pos (by norm_num)]

lemma getD_replicate_of_lt (n i : ℕ) (v : ℚ) (h : i < n) :
    (List.replicate n v).getD i 0 = v := by
  induction n generalizing i with
  | zero => omega
  | succ n ih =>
    cases i with
    | zero => rfl
    | succ i =>
      rw [List.replicate_succ, List.getD_cons_succ]
      exact ih i (by omega)

lemma histFold_all_zero (lo w v : ℚ) (hb : binIndex lo w v = 0) (m : ℕ) :
    ∀ (k : ℕ) (rest : List ℕ),
      ((List.replicate m v).foldl (fun cnts x =>
          cnts.set (binIndex lo w x) (cnts.getD (binIndex lo w x) 0 + 1))
        (k :: rest)) = (k + m) :: rest := by
  induction m with
  | zero => intro k rest; simp
  | succ m ih =>
    intro k rest
    rw [List.replicate_succ, List.foldl_cons, hb]
    have hset : (k :: rest).set 0 ((k :: rest).getD 0 0 + 1) = (k + 1) :: rest := rfl
    rw [hset, ih]
    congr 1
    omega

lemma binIndex_self (v w : ℚ) : binIndex v w v = 0 := by
  unfold binIndex
  norm_num

/-- C5: every histogram built by `buildHist` has exactly 30 bins, every
sample's clamped bin index lies below 30, the bin counts sum to the number
of samples, and in the degenerate all-identical case (`n` copies of `v`,
`n > 0`) the histogram spans `[v, v + 1e-9]` with all `n` samples in bin 0. -/
theorem histogram_properties (outcomes : List ℚ) (v : ℚ) (n : ℕ) (hn : 0 < n) :
    (buildHist outcomes).bins = 30 ∧
    (buildHist outcomes).counts.length = 30 ∧
    (buildHist outcomes).counts.sum = outcomes.length ∧
    (∀ lo w x, binIndex lo w x < 30) ∧
    (buildHist (List.replicate n v)).min = v ∧
    (buildHist (List.replicate n v)).max = v + 1/1000000000 ∧
    (buildHist (List.replicate n v)).counts = n :: List.replicate 29 0 := by
  have hrep : sortAsc (List.replicate n v) = List.replicate n v := sortAsc_replicate n v
  have hmin : (sortAsc (List.replicate n v)).getD 0 0 = v := by
    rw [hrep]; exact getD_replicate_of_lt n 0 v hn
  have hmax0 : (sortAsc (List.replicate n v)).getD
      ((sortAsc (List.replicate n v)).length - 1) 0 = v := by
    rw [hrep, List.length_replicate]
    exact getD_replicate_of_lt n (n - 1) v (by omega)
  refine ⟨rfl, ?_, ?_, fun lo w x => binIndex_lt lo w x, ?_, ?_, ?_⟩
  · simp only [buildHist]
    exact (histFold_length_sum _ _ outcomes (List.replicate 30 0) (by simp)).1
  · simp only [buildHist]
    refine Eq.trans ((histFold_length_sum _ _ outcomes (List.replicate 30 0) (by simp)).2) ?_
    simp
  · simp only [buildHist]
    exact hmin
  · simp only [buildHist]
    rw [hmax0, hmin, if_pos rfl]
  · simp only [buildHist]
    rw [hmax0, hmin, if_pos rfl]
    have h30 : (List.replicate 30 (0 : ℕ)) = 0 :: List.replicate 29 0 := rfl
    rw [h30, histFold_all_zero v _ v (binIndex_self v _) n 0 (List.replicate 29 0)]
    congr 1
    omega

/-- Witness for C5 at `outcomes = [1, 2]`, degenerate set of two copies
of `5`. -/
theorem histogram_properties_witness :
    (0 < 2) ∧
    ((buildHist [(1 : ℚ), 2]).bins = 30 ∧
     (buildHist [(1 : ℚ), 2]).counts.length = 30 ∧
     (buildHist [(1 : ℚ), 2]).counts.sum = [(1 : ℚ), 2].length ∧
     (∀ lo w x, binIndex lo w x < 30) ∧
     (buildHist (List.replicate 2 (5 : ℚ))).min = 5 ∧
     (buildHist (List.replicate 2 (5 : ℚ))).max = 5 + 1/1000000000 ∧
     (buildHist (List.replicate 2 (5 : ℚ))).counts = 2 :: List.replicate 29 0) :=
  ⟨by norm_num, histogram_properties [(1 : ℚ), 2] 5 2 (by norm_num)⟩

/-- C8 counterexample: a request whose exposures contain the non-finite
value `NaN` with the correct length (1 entry for a 1-month horizon, valid
sims, known pair) passes every guard of the handler — `runValidation`
returns `none`, i.e. the simulation is entered — instead of being rejected
as an InvalidSchedule violation. -/
theorem nonfinite_exposures_not_rejected :
    runValidation "GBP" "USD" [JSNum.nan] (some (JSNum.num 1))
        (some (JSNum.num 100)) none none true = none ∧
    JSNum.isFinite JSNum.nan = false ∧
    ([JSNum.nan].length : ℚ) = horizonOf (some (JSNum.num 1)) := by
  exact ⟨by decide, rfl, by norm_num [horizonOf]⟩

/-- C8 amended: the handler validates the exposures array only through its
length; the values are never inspected, so two exposure arrays of equal
length — one of them containing non-finite values — validate identically,
and a correct-length schedule with non-finite values proceeds to
simulation. -/
theorem validation_ignores_exposure_values (homeCcy exposureCcy : String)
    (xs ys : List JSNum) (months sims forwardRate hedgeRatio : Option JSNum)
    (pairFound : Bool) (hlen : xs.length = ys.length) :
    runValidation homeCcy exposureCcy xs months sims forwardRate hedgeRatio pairFound
      = runValidation homeCcy exposureCcy ys months sims forwardRate hedgeRatio pairFound := by
  unfold runValidation
  rw [hlen]

/-- Witness for C8 amended: `[NaN]` and `[0]` validate identically. -/
theorem validation_ignores_exposure_values_witness :
    [JSNum.nan].length = [JSNum.num 0].length ∧
    runValidation "GBP" "USD" [JSNum.nan] (some (JSNum.num 1))
        (some (JSNum.num 100)) none none true
      = runValidation "GBP" "USD" [JSNum.num 0] (some (JSNum.num 1))
        (some (JSNum.num 100)) none none true :=
  ⟨rfl, validation_ignores_exposure_values "GBP" "USD" [JSNum.nan] [JSNum.num 0]
    (some (JSNum.num 1)) (some (JSNum.num 100)) none none true rfl⟩

/-- C9 counterexample: on fewer than 2 closes `closesToReturns` does not
fail — it returns the empty series — while the extractor the spec
describes (`closesToReturnsSpec`, modelled from the spec's words) fails. -/
theorem returns_short_input_counterexample :
    closesToReturns [(1 : ℚ)] = [] ∧
    closesToReturns ([] : List ℚ) = [] ∧
    closesToReturnsSpec [(1 : ℚ)] = none :=
  ⟨rfl, rfl, rfl⟩

/-- C9 amended: `closesToReturns` never fails; on fewer than 2 closes it
returns the empty series, and on any input it returns a series of length
`len(closes) - 1` with `r[i] = closes[i+1] / closes[i] - 1`. -/
theorem closesToReturns_amended (closes : List ℚ) :
    (closesToReturns closes).length = closes.length - 1 ∧
    (∀ i, i + 1 < closes.length →
      (closesToReturns closes).getD i 0
        = closes.getD (i + 1) 0 / closes.getD i 0 - 1) ∧
    (closes.length < 2 → closesToReturns closes = []) := by
  induction closes with
  | nil =>
    refine ⟨rfl, ?_, fun _ => rfl⟩
    intro i h
    simp at h
  | cons a tail ih =>
    cases tail with
    | nil =>
      refine ⟨rfl, ?_, fun _ => rfl⟩
      intro i h
      simp at h
    | cons b rest =>
      refine ⟨?_, ?_, ?_⟩
      · rw [closesToReturns, List.length_cons, ih.1]
        simp only [List.length_cons]
        omega
      · intro i h
        cases i with
        | zero =>
          rw [closesToReturns]
          rfl
        | succ i =>
          rw [closesToReturns, List.getD_cons_succ, List.getD_cons_succ,
            List.getD_cons_succ]
          exact ih.2.1 i (by simpa using Nat.lt_of_succ_lt_succ h)
      · intro h
        simp only [List.length_cons] at h
        omega

/-- Witness for C9 amended on `closes = [1, 2]`. -/
theorem closesToReturns_amended_witness :
    (closesToReturns [(1 : ℚ), 2]).length = [(1 : ℚ), 2].length - 1 ∧
    (0 + 1 < [(1 : ℚ), 2].length) ∧
    (closesToReturns [(1 : ℚ), 2]).getD 0 0
      = [(1 : ℚ), 2].getD 1 0 / [(1 : ℚ), 2].getD 0 0 - 1 :=
  ⟨(closesToReturns_amended [(1 : ℚ), 2]).1, by norm_num,
    (closesToReturns_amended [(1 : ℚ), 2]).2.1 0 (by norm_num)⟩

/-- C10: the hedging horizon comes from `exposures.length`, not the
`months` parameter: both summaries of `applyHedgingToPaths` (and hence of
`simulateHedgedCFaR`) report `months = exposures.length`; the `months`
parameter only sets the generated path length (`months + 1`, a path for a
shorter horizon being the length-wise truncation of the same path for a
longer one); and when `exposures.length = months`, every index the ledger
reads (`path[t]` and `path[t+1]` for `t < exposures.length`) exists. -/
theorem months_reported_from_exposures
    (draws : ℕ → ℕ → ℕ) (spot : ℚ) (monthlyReturns exposures : List ℚ)
    (sims months : ℕ) (clampLower clampUpper : Option ℚ)
    (hedgeRatio forwardRate : ℚ) (tenorOpt : Option ℕ)
    (fxPaths : List (List ℚ)) (mA mB : ℕ)
    (hm : exposures.length = months) (hAB : mA ≤ mB) :
    (applyHedgingToPaths fxPaths exposures hedgeRatio forwardRate tenorOpt).unhedged.months
      = exposures.length ∧
    (applyHedgingToPaths fxPaths exposures hedgeRatio forwardRate tenorOpt).hedged.months
      = exposures.length ∧
    (simulateHedgedCFaR draws spot monthlyReturns exposures sims months
        clampLower clampUpper hedgeRatio forwardRate tenorOpt).unhedged.months
      = exposures.length ∧
    (simulateHedgedCFaR draws spot monthlyReturns exposures sims months
        clampLower clampUpper hedgeRatio forwardRate tenorOpt).hedged.months
      = exposures.length ∧
    (∀ p ∈ simulateFXPaths draws spot monthlyReturns sims months clampLower clampUpper,
      p.length = months + 1 ∧ ∀ t < exposures.length, t + 1 < p.length) ∧
    simulateFXPaths draws spot monthlyReturns sims mA clampLower clampUpper
      = (simulateFXPaths draws spot monthlyReturns sims mB clampLower clampUpper).map
          (List.take (mA + 1)) := by
  refine ⟨rfl, rfl, rfl, rfl, ?_, ?_⟩
  · intro p hp
    unfold simulateFXPaths at hp
    rcases List.mem_map.mp hp with ⟨k, _, rfl⟩
    constructor
    · rw [List.length_map, List.length_range]
    · intro t ht
      rw [List.length_map, List.length_range]
      omega
  · unfold simulateFXPaths
    rw [List.map_map]
    apply List.map_congr_left
    intro k _
    show _ = ((List.range (mB + 1)).map _).take (mA + 1)
    rw [← List.map_take, List.take_range]
    have hmin : min (mA + 1) (mB + 1) = mA + 1 := by omega
    rw [hmin]

/-- Witness for C10 at a one-month horizon with matching exposure length. -/
theorem months_reported_from_exposures_witness :
    [(5 : ℚ)].length = 1 ∧ (0 : ℕ) ≤ 1 ∧
    ((applyHedgingToPaths [[(1 : ℚ), 1]] [(5 : ℚ)] 0 1 none).unhedged.months
        = [(5 : ℚ)].length ∧
      (applyHedgingToPaths [[(1 : ℚ), 1]] [(5 : ℚ)] 0 1 none).hedged.months
        = [(5 : ℚ)].length ∧
      (simulateHedgedCFaR (fun _ _ => 0) 1 [] [(5 : ℚ)] 1 1 none none 0 1 none).unhedged.months
        = [(5 : ℚ)].length ∧
      (simulateHedgedCFaR (fun _ _ => 0) 1 [] [(5 : ℚ)] 1 1 none none 0 1 none).hedged.months
        = [(5 : ℚ)].length ∧
      (∀ p ∈ simulateFXPaths (fun _ _ => 0) 1 [] 1 1 none none,
        p.length = 1 + 1 ∧ ∀ t < [(5 : ℚ)].length, t + 1 < p.length) ∧
      simulateFXPaths (fun _ _ => 0) 1 [] 1 0 none none
        = (simulateFXPaths (fun _ _ => 0) 1 [] 1 1 none none).map
            (List.take (0 + 1))) :=
  ⟨rfl, by omega,
    months_reported_from_exposures (fun _ _ => 0) 1 [] [(5 : ℚ)] 1 1 none none
      0 1 none [[(1 : ℚ), 1]] 0 1 rfl (by omega)⟩

end Tenora
